import Mathlib

/-!
Shallow embedding of the synthesis engine of `src/services/audioEngine.ts`
(together with the patch data model of `src/types.ts`).

Modelling conventions:
* Times, frequencies and gain values are rationals (`ℚ`); `Math.PI` is embedded
  as the exact rational value of the IEEE-754 double `Math.PI`.
* A Web Audio `AudioParam` is modelled as its directly-assigned `value` field
  together with the list of automation events scheduled on it.  Scheduling
  methods append events; `cancelScheduledValues(t)` drops the events whose time
  is `≥ t`, following the Web Audio specification.  Reading `.value` returns the
  stored field (the continuous-time evaluation of the automation timeline by
  the audio thread is outside the model).
* Nullable node fields of the `AudioEngine` class are `Option`s, and every
  method mirrors the null guards of the source.
* `context.currentTime` is an input `t` of each method that reads it.
* The note registry `activeNotes : Map<string, Voice>` is an association list
  with JavaScript `Map` semantics (`get` finds the entry, `set` replaces an
  existing key in place or appends, `delete` removes the key).
* Released voices stay connected in the audio graph until their deferred
  `setTimeout` cleanup fires; the model keeps them, with the wall-clock time at
  which the cleanup is scheduled, in a `releasedVoices` list so that the
  scheduling performed by `triggerRelease` stays observable.
* `resume()` only touches the run state of the `AudioContext`, which no claim
  mentions; it is not modelled.
-/

/-! ## Data model (`src/types.ts`) -/

/-- Embeds `OscillatorType` / `LfoWaveform` of `src/types.ts` (same four shapes). -/
inductive Waveform where
  | sine
  | square
  | sawtooth
  | triangle
deriving DecidableEq

/-- Embeds `LfoTarget` of `src/types.ts`. -/
inductive LfoTarget where
  | none
  | cutoff
  | pitch
  | amp
deriving DecidableEq

/-- Embeds `SynthPatch` of `src/types.ts`. -/
structure SynthPatch where
  oscType : Waveform
  filterCutoff : ℚ
  filterResonance : ℚ
  ampAttack : ℚ
  ampDecay : ℚ
  ampSustain : ℚ
  ampRelease : ℚ
  masterGain : ℚ
  lfoWaveform : Waveform
  lfoRate : ℚ
  lfoDepth : ℚ
  lfoTarget : LfoTarget
  distortionAmount : ℚ
  delayTime : ℚ
  delayFeedback : ℚ
  reverbMix : ℚ
deriving DecidableEq

/-- Embeds `DEFAULT_PATCH` of `src/types.ts`. -/
def DEFAULT_PATCH : SynthPatch where
  oscType := .sawtooth
  filterCutoff := 2000
  filterResonance := 1
  ampAttack := 1/10
  ampDecay := 1/5
  ampSustain := 7/10
  ampRelease := 1
  masterGain := 1/2
  lfoWaveform := .sine
  lfoRate := 5
  lfoDepth := 0
  lfoTarget := .none
  distortionAmount := 0
  delayTime := 3/10
  delayFeedback := 3/10
  reverbMix := 0

/-! ## Web Audio node model -/

/-- One automation event scheduled on an `AudioParam`. -/
inductive AutomationEvent where
  | setValueAtTime (v t : ℚ)
  | linearRampToValueAtTime (v t : ℚ)
  | exponentialRampToValueAtTime (v t : ℚ)
  | setTargetAtTime (target t timeConstant : ℚ)
deriving DecidableEq

/-- The time coordinate of an automation event. -/
def AutomationEvent.time : AutomationEvent → ℚ
  | .setValueAtTime _ t => t
  | .linearRampToValueAtTime _ t => t
  | .exponentialRampToValueAtTime _ t => t
  | .setTargetAtTime _ t _ => t

/-- The value an automation event drives the parameter toward. -/
def AutomationEvent.target : AutomationEvent → ℚ
  | .setValueAtTime v _ => v
  | .linearRampToValueAtTime v _ => v
  | .exponentialRampToValueAtTime v _ => v
  | .setTargetAtTime v _ _ => v

/-- A Web Audio `AudioParam`: direct-assignment value plus scheduled events. -/
structure AudioParam where
  value : ℚ
  events : List AutomationEvent
deriving DecidableEq

def AudioParam.setValueAtTime (p : AudioParam) (v t : ℚ) : AudioParam :=
  { p with events := p.events ++ [.setValueAtTime v t] }

def AudioParam.linearRampToValueAtTime (p : AudioParam) (v t : ℚ) : AudioParam :=
  { p with events := p.events ++ [.linearRampToValueAtTime v t] }

def AudioParam.exponentialRampToValueAtTime (p : AudioParam) (v t : ℚ) : AudioParam :=
  { p with events := p.events ++ [.exponentialRampToValueAtTime v t] }

def AudioParam.setTargetAtTime (p : AudioParam) (target t timeConstant : ℚ) : AudioParam :=
  { p with events := p.events ++ [.setTargetAtTime target t timeConstant] }

/-- Method `cancelScheduledValues(t)`: removes the events scheduled at time `≥ t`. -/
def AudioParam.cancelScheduledValues (p : AudioParam) (t : ℚ) : AudioParam :=
  { p with events := p.events.filter (fun e => decide (e.time < t)) }

/-- After the last scheduled event a Web Audio parameter holds that event's end
value; `none` when nothing is scheduled. -/
def steadyValue (events : List AutomationEvent) : Option ℚ :=
  events.getLast?.map AutomationEvent.target

structure GainNode where
  gain : AudioParam
deriving DecidableEq

/-- Node factory `context.createGain()`: the construction default of `gain` is 1. -/
def createGain : GainNode := { gain := { value := 1, events := [] } }

structure OscillatorNode where
  otype : Waveform
  frequency : AudioParam
  detune : AudioParam
  startTime : Option ℚ
  stopTime : Option ℚ
deriving DecidableEq

/-- Node factory `context.createOscillator()` defaults. -/
def createOscillator : OscillatorNode where
  otype := .sine
  frequency := { value := 440, events := [] }
  detune := { value := 0, events := [] }
  startTime := none
  stopTime := none

structure BiquadFilterNode where
  ftype : String
  frequency : AudioParam
  Q : AudioParam
deriving DecidableEq

/-- Node factory `context.createBiquadFilter()` defaults. -/
def createBiquadFilter : BiquadFilterNode where
  ftype := "lowpass"
  frequency := { value := 350, events := [] }
  Q := { value := 1, events := [] }

structure DelayNode where
  maxDelayTime : ℚ
  delayTime : AudioParam
deriving DecidableEq

structure WaveShaperNode where
  curve : Option (ℕ → ℚ)
  oversample : String

structure ConvolverNode where
  /-- The (duration, decay) parameters the synthesized impulse response was
  generated from; the random sample data itself is outside the model. -/
  buffer : Option (ℚ × ℚ)
deriving DecidableEq

structure AnalyserNode where
  fftSize : ℕ
deriving DecidableEq

/-! ## Voices and the engine state -/

/-- One per-note signal chain, as allocated by `triggerAttack`. -/
structure Voice where
  osc : OscillatorNode
  filter : BiquadFilterNode
  amp : GainNode
  lfo : OscillatorNode
  lfoGain : GainNode
  /-- Which parameter `lfoGain` was connected to at creation time. -/
  lfoRoute : LfoTarget
deriving DecidableEq

/-- A voice that `triggerRelease` removed from the registry: its nodes stay in
the audio graph until the deferred cleanup (`setTimeout`) fires at
`cleanupTime`. -/
structure ReleasedVoice where
  voice : Voice
  cleanupTime : ℚ
deriving DecidableEq

/-- The fields of the `AudioEngine` class (nullable node references, the note
registry) plus the `releasedVoices` record of deferred cleanups. -/
structure AudioEngineState where
  context : Bool
  masterGain : Option GainNode
  distortionNode : Option WaveShaperNode
  delayNode : Option DelayNode
  delayFeedbackNode : Option GainNode
  delayWetNode : Option GainNode
  reverbNode : Option ConvolverNode
  reverbWetNode : Option GainNode
  reverbDryNode : Option GainNode
  analyser : Option AnalyserNode
  activeNotes : List (String × Voice)
  releasedVoices : List ReleasedVoice

/-- The state of a freshly constructed `AudioEngine` (every field null, empty
registry). -/
def initialState : AudioEngineState where
  context := false
  masterGain := none
  distortionNode := none
  delayNode := none
  delayFeedbackNode := none
  delayWetNode := none
  reverbNode := none
  reverbWetNode := none
  reverbDryNode := none
  analyser := none
  activeNotes := []
  releasedVoices := []

/-! ### The `activeNotes` JavaScript `Map` -/

/-- JavaScript `Map.get`. -/
def mapGet (m : List (String × Voice)) (id : String) : Option Voice :=
  (m.find? (fun kv => kv.1 == id)).map Prod.snd

/-- JavaScript `Map.set`: replaces an existing key in place, otherwise appends. -/
def mapSet (m : List (String × Voice)) (id : String) (v : Voice) :
    List (String × Voice) :=
  if (m.find? (fun kv => kv.1 == id)).isSome then
    m.map (fun kv => if kv.1 == id then (id, v) else kv)
  else
    m ++ [(id, v)]

/-- JavaScript `Map.delete`. -/
def mapDelete (m : List (String × Voice)) (id : String) : List (String × Voice) :=
  m.filter (fun kv => !(kv.1 == id))

/-- How many entries of the registry carry the identity `id`. -/
def countKey (m : List (String × Voice)) (id : String) : ℕ :=
  (m.filter (fun kv => kv.1 == id)).length

/-! ## `AudioEngine` methods -/

namespace AudioEngine

/-- Method `init()`: builds the shared graph once; a second call is a no-op.  Only the
master gain value is initialized explicitly (`masterGain.gain.value = 0.5`);
every other gain keeps the `createGain` construction default of 1. -/
def init (s : AudioEngineState) : AudioEngineState :=
  if s.context then s
  else
    { context := true
      masterGain := some { gain := { createGain.gain with value := 1/2 } }
      distortionNode := some { curve := none, oversample := "none" }
      delayNode := some { maxDelayTime := 5, delayTime := { value := 0, events := [] } }
      delayFeedbackNode := some createGain
      delayWetNode := some createGain
      reverbNode := some { buffer := some (2, 2) }
      reverbWetNode := some createGain
      reverbDryNode := some createGain
      analyser := some { fftSize := 2048 }
      activeNotes := s.activeNotes
      releasedVoices := s.releasedVoices }

/-- Method `getAnalyser()`. -/
def getAnalyser (s : AudioEngineState) : Option AnalyserNode :=
  s.analyser

/-- Method `setMasterVolume(val)` at current time `t`. -/
def setMasterVolume (s : AudioEngineState) (val t : ℚ) : AudioEngineState :=
  match s.masterGain, s.context with
  | some g, true =>
      { s with masterGain := some { gain := g.gain.setTargetAtTime val t (1/100) } }
  | _, _ => s

/-- The exact rational value of the IEEE-754 double `Math.PI`. -/
def mathPi : ℚ := 884279719003555 / 281474976710656

/-- Sample count `n_samples` of `makeDistortionCurve`. -/
def n_samples : ℕ := 44100

/-- Method `makeDistortionCurve(amount)`: the curve as a function of the sample index
(the source fills a `Float32Array` of `n_samples` entries with these values). -/
def makeDistortionCurve (amount : ℚ) : ℕ → ℚ :=
  let k := amount
  let deg := mathPi / 180
  if amount = 0 then
    fun i => (i * 2 : ℚ) / (n_samples : ℚ) - 1
  else
    fun i =>
      let x : ℚ := (i * 2 : ℚ) / (n_samples : ℚ) - 1
      (3 + k) * x * 20 * deg / (mathPi + k * |x|)

/-- The LFO depth-gain value chosen by `triggerAttack`'s routing block. -/
def lfoAmountAttack (p : SynthPatch) : ℚ :=
  match p.lfoTarget with
  | .cutoff => p.lfoDepth * 2000
  | .pitch => p.lfoDepth * 100
  | .amp => p.lfoDepth * (1/2)
  | .none => 0

/-- The LFO depth-gain value recomputed by `updateActiveParams`. -/
def lfoAmountUpdate (p : SynthPatch) : ℚ :=
  match p.lfoTarget with
  | .cutoff => p.lfoDepth * 1000
  | .pitch => p.lfoDepth * 100
  | .amp => p.lfoDepth * (1/2)
  | .none => 0

/-- The per-voice body of the `activeNotes.forEach` loop of
`updateActiveParams`. -/
def updateVoice (p : SynthPatch) (t : ℚ) (note : Voice) : Voice :=
  { note with
    filter := { note.filter with
      frequency := note.filter.frequency.setTargetAtTime p.filterCutoff t (1/10)
      Q := note.filter.Q.setTargetAtTime p.filterResonance t (1/10) }
    lfo := { note.lfo with
      otype := p.lfoWaveform
      frequency := note.lfo.frequency.setTargetAtTime p.lfoRate t (1/10) }
    lfoGain := { note.lfoGain with
      gain := note.lfoGain.gain.setTargetAtTime (lfoAmountUpdate p) t (1/10) } }

/-- The `if (this.distortionNode)` block of `updateActiveParams`. -/
def updateDistortion (p : SynthPatch) (s : AudioEngineState) : AudioEngineState :=
  match s.distortionNode with
  | some _ =>
      let d : WaveShaperNode :=
        { curve := some (makeDistortionCurve p.distortionAmount), oversample := "4x" }
      { s with distortionNode := some d }
  | none => s

/-- The `if (this.delayNode && this.delayFeedbackNode && this.delayWetNode)`
block of `updateActiveParams`. -/
def updateDelay (p : SynthPatch) (t : ℚ) (s : AudioEngineState) : AudioEngineState :=
  match s.delayNode, s.delayFeedbackNode, s.delayWetNode with
  | some dn, some fb, some wet =>
      let delayWet : ℚ := if p.delayTime > 0 then 1/2 else 0
      { s with
        delayNode := some { dn with delayTime := dn.delayTime.setTargetAtTime p.delayTime t (1/10) }
        delayFeedbackNode := some { gain := fb.gain.setTargetAtTime p.delayFeedback t (1/10) }
        delayWetNode := some { gain := wet.gain.setTargetAtTime delayWet t (1/10) } }
  | _, _, _ => s

/-- The `if (this.reverbDryNode && this.reverbWetNode)` block of
`updateActiveParams`. -/
def updateReverb (p : SynthPatch) (t : ℚ) (s : AudioEngineState) : AudioEngineState :=
  match s.reverbDryNode, s.reverbWetNode with
  | some dry, some wet =>
      { s with
        reverbWetNode := some { gain := wet.gain.setTargetAtTime p.reverbMix t (1/10) }
        reverbDryNode := some { gain := dry.gain.setTargetAtTime (1 - p.reverbMix * (2/5)) t (1/10) } }
  | _, _ => s

/-- Method `updateActiveParams(patch)` at current time `t`. -/
def updateActiveParams (s : AudioEngineState) (p : SynthPatch) (t : ℚ) : AudioEngineState :=
  if s.context then
    updateReverb p t (updateDelay p t (updateDistortion p
      { s with activeNotes := s.activeNotes.map (fun kv => (kv.1, updateVoice p t kv.2)) }))
  else s

/-- Release time `patch ? patch.ampRelease : 0.5` of `triggerRelease`. -/
def releaseTimeOf : Option SynthPatch → ℚ
  | some p => p.ampRelease
  | none => 1/2

/-- The node mutations `triggerRelease` performs on the voice it releases at
time `t` with release time `R`: cancel pending ramps, re-anchor the gain at its
current value, ramp to 0.001 over `R`, and stop both oscillators at
`t + R + 0.1`. -/
def releaseVoice (note : Voice) (t R : ℚ) : Voice :=
  let g := ((note.amp.gain.cancelScheduledValues t).setValueAtTime
    note.amp.gain.value t).exponentialRampToValueAtTime (1/1000) (t + R)
  { note with
    amp := { gain := g }
    osc := { note.osc with stopTime := some (t + R + 1/10) }
    lfo := { note.lfo with stopTime := some (t + R + 1/10) } }

/-- Method `triggerRelease(id, patch?)` at current time `t`. -/
def triggerRelease (s : AudioEngineState) (id : String) (t : ℚ)
    (patch : Option SynthPatch) : AudioEngineState :=
  if s.context then
    match mapGet s.activeNotes id with
    | none => s
    | some note =>
        let R := releaseTimeOf patch
        { s with
          activeNotes := mapDelete s.activeNotes id
          releasedVoices := s.releasedVoices ++
            [{ voice := releaseVoice note t R, cleanupTime := t + R + 1/5 }] }
  else s

/-- The fresh voice `triggerAttack` builds at time `t`. -/
def mkVoice (frequency : ℚ) (p : SynthPatch) (t : ℚ) : Voice :=
  let ampGain := ((createGain.gain.setValueAtTime 0 t).linearRampToValueAtTime
    1 (t + p.ampAttack)).exponentialRampToValueAtTime
    (max (1/1000) p.ampSustain) (t + p.ampAttack + p.ampDecay)
  { osc := { createOscillator with
      otype := p.oscType
      frequency := createOscillator.frequency.setValueAtTime frequency t
      startTime := some t }
    filter := { createBiquadFilter with
      ftype := "lowpass"
      frequency := createBiquadFilter.frequency.setValueAtTime p.filterCutoff t
      Q := createBiquadFilter.Q.setValueAtTime p.filterResonance t }
    amp := { gain := ampGain }
    lfo := { createOscillator with
      otype := p.lfoWaveform
      frequency := createOscillator.frequency.setValueAtTime p.lfoRate t
      startTime := some t }
    lfoGain := { gain := createGain.gain.setValueAtTime (lfoAmountAttack p) t }
    lfoRoute := p.lfoTarget }

/-- Method `triggerAttack(id, frequency, patch)` at current time `t`. -/
def triggerAttack (s : AudioEngineState) (id : String) (frequency : ℚ)
    (p : SynthPatch) (t : ℚ) : AudioEngineState :=
  match s.context, s.masterGain with
  | true, some _ =>
      let s1 := triggerRelease s id t none
      { s1 with activeNotes := mapSet s1.activeNotes id (mkVoice frequency p t) }
  | _, _ => s

end AudioEngine

/-! ## Registry lemmas -/

theorem find?_mapDelete (m : List (String × Voice)) (id : String) :
    (mapDelete m id).find? (fun kv => kv.1 == id) = none := by
  induction m with
  | nil => rfl
  | cons kv tl ih =>
      cases h : (kv.1 == id) <;>
        simp [mapDelete, List.filter, List.find?, h, ih]

theorem mapGet_mapDelete (m : List (String × Voice)) (id : String) :
    mapGet (mapDelete m id) id = none := by
  simp [mapGet, find?_mapDelete]

theorem countKey_mapDelete (m : List (String × Voice)) (id : String) :
    countKey (mapDelete m id) id = 0 := by
  induction m with
  | nil => rfl
  | cons kv tl ih =>
      cases h : (kv.1 == id) <;>
        simp [countKey, mapDelete, List.filter, h, ih]

theorem countKey_eq_zero_of_find?_none (m : List (String × Voice)) (id : String) :
    m.find? (fun kv => kv.1 == id) = none → countKey m id = 0 := by
  induction m with
  | nil => intro _; rfl
  | cons kv tl ih =>
      intro h
      cases hk : (kv.1 == id)
      · simp only [List.find?, hk] at h
        simpa [countKey, List.filter, hk] using ih h
      · simp [List.find?, hk] at h

theorem mapSet_of_find?_none (m : List (String × Voice)) (id : String) (v : Voice)
    (h : m.find? (fun kv => kv.1 == id) = none) :
    mapSet m id v = m ++ [(id, v)] := by
  simp [mapSet, h]

theorem mapGet_append_single (m : List (String × Voice)) (id : String) (v : Voice) :
    m.find? (fun kv => kv.1 == id) = none → mapGet (m ++ [(id, v)]) id = some v := by
  induction m with
  | nil => intro _; simp [mapGet, List.find?]
  | cons kv tl ih =>
      intro h
      cases hk : (kv.1 == id)
      · simp only [List.find?, hk] at h
        have hrec := ih h
        simp only [mapGet, List.cons_append, List.find?, hk] at hrec ⊢
        exact hrec
      · simp [List.find?, hk] at h

theorem countKey_append_single (m : List (String × Voice)) (id : String) (v : Voice) :
    countKey (m ++ [(id, v)]) id = countKey m id + 1 := by
  simp [countKey, List.filter_append, List.filter]

/-! ## Engine lemmas -/

namespace AudioEngine

theorem find?_eq_none_of_mapGet_none (m : List (String × Voice)) (id : String)
    (h : mapGet m id = none) : m.find? (fun kv => kv.1 == id) = none := by
  unfold mapGet at h
  exact Option.map_eq_none'.mp h

theorem triggerRelease_eq_found (s : AudioEngineState) (id : String) (t : ℚ)
    (po : Option SynthPatch) (v : Voice)
    (hc : s.context = true) (hv : mapGet s.activeNotes id = some v) :
    triggerRelease s id t po =
      { s with
        activeNotes := mapDelete s.activeNotes id
        releasedVoices := s.releasedVoices ++
          [{ voice := releaseVoice v t (releaseTimeOf po),
             cleanupTime := t + releaseTimeOf po + 1/5 }] } := by
  unfold triggerRelease
  rw [hc, hv]
  rfl

theorem triggerRelease_context (s : AudioEngineState) (id : String) (t : ℚ)
    (po : Option SynthPatch) : (triggerRelease s id t po).context = s.context := by
  unfold triggerRelease
  split
  · split <;> rfl
  · rfl

theorem triggerRelease_masterGain (s : AudioEngineState) (id : String) (t : ℚ)
    (po : Option SynthPatch) : (triggerRelease s id t po).masterGain = s.masterGain := by
  unfold triggerRelease
  split
  · split <;> rfl
  · rfl

theorem mapGet_triggerRelease_self (s : AudioEngineState) (id : String) (t : ℚ)
    (po : Option SynthPatch) (hc : s.context = true) :
    mapGet (triggerRelease s id t po).activeNotes id = none := by
  unfold triggerRelease
  rw [hc]
  cases h : mapGet s.activeNotes id
  · simpa using h
  · simpa using mapGet_mapDelete s.activeNotes id

theorem triggerAttack_eq (s : AudioEngineState) (id : String) (f : ℚ)
    (p : SynthPatch) (t : ℚ) (g : GainNode)
    (hc : s.context = true) (hm : s.masterGain = some g) :
    triggerAttack s id f p t =
      { triggerRelease s id t none with
        activeNotes := mapSet (triggerRelease s id t none).activeNotes id (mkVoice f p t) } := by
  unfold triggerAttack
  rw [hc, hm]

theorem triggerAttack_context (s : AudioEngineState) (id : String) (f : ℚ)
    (p : SynthPatch) (t : ℚ) : (triggerAttack s id f p t).context = s.context := by
  unfold triggerAttack
  split
  · exact triggerRelease_context s id t none
  · rfl

theorem triggerAttack_masterGain (s : AudioEngineState) (id : String) (f : ℚ)
    (p : SynthPatch) (t : ℚ) : (triggerAttack s id f p t).masterGain = s.masterGain := by
  unfold triggerAttack
  split
  · exact triggerRelease_masterGain s id t none
  · rfl

theorem triggerAttack_activeNotes (s : AudioEngineState) (id : String) (f : ℚ)
    (p : SynthPatch) (t : ℚ) (g : GainNode)
    (hc : s.context = true) (hm : s.masterGain = some g) :
    (triggerAttack s id f p t).activeNotes
      = (triggerRelease s id t none).activeNotes ++ [(id, mkVoice f p t)] := by
  rw [triggerAttack_eq s id f p t g hc hm]
  exact mapSet_of_find?_none _ _ _ (find?_eq_none_of_mapGet_none _ _
    (mapGet_triggerRelease_self s id t none hc))

end AudioEngine


namespace AudioEngine

theorem updateActiveParams_eq (s : AudioEngineState) (p : SynthPatch) (t : ℚ)
    (hc : s.context = true) :
    updateActiveParams s p t =
      updateReverb p t (updateDelay p t (updateDistortion p
        { s with activeNotes := s.activeNotes.map (fun kv => (kv.1, updateVoice p t kv.2)) })) := by
  unfold updateActiveParams
  rw [hc]
  rfl

theorem updateDistortion_reverbWetNode (p : SynthPatch) (s : AudioEngineState) :
    (updateDistortion p s).reverbWetNode = s.reverbWetNode := by
  unfold updateDistortion
  split <;> rfl

theorem updateDistortion_reverbDryNode (p : SynthPatch) (s : AudioEngineState) :
    (updateDistortion p s).reverbDryNode = s.reverbDryNode := by
  unfold updateDistortion
  split <;> rfl

theorem updateDistortion_activeNotes (p : SynthPatch) (s : AudioEngineState) :
    (updateDistortion p s).activeNotes = s.activeNotes := by
  unfold updateDistortion
  split <;> rfl

theorem updateDelay_reverbWetNode (p : SynthPatch) (t : ℚ) (s : AudioEngineState) :
    (updateDelay p t s).reverbWetNode = s.reverbWetNode := by
  unfold updateDelay
  split <;> rfl

theorem updateDelay_reverbDryNode (p : SynthPatch) (t : ℚ) (s : AudioEngineState) :
    (updateDelay p t s).reverbDryNode = s.reverbDryNode := by
  unfold updateDelay
  split <;> rfl

theorem updateDelay_activeNotes (p : SynthPatch) (t : ℚ) (s : AudioEngineState) :
    (updateDelay p t s).activeNotes = s.activeNotes := by
  unfold updateDelay
  split <;> rfl

theorem updateReverb_activeNotes (p : SynthPatch) (t : ℚ) (s : AudioEngineState) :
    (updateReverb p t s).activeNotes = s.activeNotes := by
  unfold updateReverb
  split <;> rfl

theorem updateReverb_nodes (p : SynthPatch) (t : ℚ) (s : AudioEngineState)
    (w d : GainNode) (hw : s.reverbWetNode = some w) (hd : s.reverbDryNode = some d) :
    (updateReverb p t s).reverbWetNode
      = some { gain := w.gain.setTargetAtTime p.reverbMix t (1/10) } ∧
    (updateReverb p t s).reverbDryNode
      = some { gain := d.gain.setTargetAtTime (1 - p.reverbMix * (2/5)) t (1/10) } := by
  unfold updateReverb
  rw [hw, hd]
  exact ⟨rfl, rfl⟩

theorem keys_keymap (m : List (String × Voice)) (g : Voice → Voice) :
    (m.map (fun kv => (kv.1, g kv.2))).map Prod.fst = m.map Prod.fst := by
  induction m with
  | nil => rfl
  | cons kv tl ih => simp [ih]

theorem mapGet_keymap (m : List (String × Voice)) (g : Voice → Voice) (id : String) :
    mapGet (m.map (fun kv => (kv.1, g kv.2))) id = (mapGet m id).map g := by
  induction m with
  | nil => rfl
  | cons kv tl ih =>
      cases h : (kv.1 == id)
      · simpa [mapGet, List.find?, h] using ih
      · simp [mapGet, List.find?, h]

end AudioEngine


/-! ## Claims -/

namespace AudioEngine

/-- Claim C1: `triggerAttack(id, …)` first releases any voice already
registered under `id` and then registers a fresh voice, so after two
consecutive `triggerAttack` calls with the same `id` the registry holds
exactly one live voice under `id`, namely the voice built by the second
call. -/
theorem retrigger_single_voice (s : AudioEngineState) (id : String)
    (f1 f2 : ℚ) (p1 p2 : SynthPatch) (t1 t2 : ℚ) (g : GainNode)
    (hc : s.context = true) (hm : s.masterGain = some g) :
    countKey (triggerAttack (triggerAttack s id f1 p1 t1) id f2 p2 t2).activeNotes id = 1 ∧
    mapGet (triggerAttack (triggerAttack s id f1 p1 t1) id f2 p2 t2).activeNotes id
      = some (mkVoice f2 p2 t2) := by
  have hc1 : (triggerAttack s id f1 p1 t1).context = true := by
    rw [triggerAttack_context]; exact hc
  have hm1 : (triggerAttack s id f1 p1 t1).masterGain = some g := by
    rw [triggerAttack_masterGain]; exact hm
  have hnotes := triggerAttack_activeNotes (triggerAttack s id f1 p1 t1) id f2 p2 t2 g hc1 hm1
  have hfind := find?_eq_none_of_mapGet_none _ _
    (mapGet_triggerRelease_self (triggerAttack s id f1 p1 t1) id t2 none hc1)
  constructor
  · rw [hnotes, countKey_append_single, countKey_eq_zero_of_find?_none _ _ hfind]
  · rw [hnotes]
    exact mapGet_append_single _ _ _ hfind

theorem retrigger_single_voice_check :
    countKey (triggerAttack (triggerAttack (init initialState) "n" 440 DEFAULT_PATCH 0)
      "n" 220 DEFAULT_PATCH 1).activeNotes "n" = 1 :=
  (retrigger_single_voice (init initialState) "n" 440 220 DEFAULT_PATCH DEFAULT_PATCH 0 1
    { gain := { value := 1/2, events := [] } } rfl rfl).1

/-- Claim C2: on an initialized engine `triggerAttack(id, frequency, patch)`
registers a voice whose amplitude gain schedule is exactly: value 0 at the
current time `t`, a linear ramp to 1 at `t + ampAttack`, an exponential ramp to
`max(0.001, ampSustain)` at `t + ampAttack + ampDecay`, after which the
parameter holds that sustain value (the schedule's steady value). -/
theorem triggerAttack_amp_envelope (s : AudioEngineState) (id : String)
    (f : ℚ) (p : SynthPatch) (t : ℚ) (g : GainNode)
    (hc : s.context = true) (hm : s.masterGain = some g) :
    mapGet (triggerAttack s id f p t).activeNotes id = some (mkVoice f p t) ∧
    (mkVoice f p t).amp.gain.events =
      [AutomationEvent.setValueAtTime 0 t,
       AutomationEvent.linearRampToValueAtTime 1 (t + p.ampAttack),
       AutomationEvent.exponentialRampToValueAtTime (max (1/1000) p.ampSustain)
         (t + p.ampAttack + p.ampDecay)] ∧
    steadyValue (mkVoice f p t).amp.gain.events = some (max (1/1000) p.ampSustain) := by
  refine ⟨?_, rfl, rfl⟩
  rw [triggerAttack_activeNotes s id f p t g hc hm]
  exact mapGet_append_single _ _ _ (find?_eq_none_of_mapGet_none _ _
    (mapGet_triggerRelease_self s id t none hc))

theorem triggerAttack_amp_envelope_check :
    mapGet (triggerAttack (init initialState) "n" 440 DEFAULT_PATCH 0).activeNotes "n"
      = some (mkVoice 440 DEFAULT_PATCH 0) :=
  (triggerAttack_amp_envelope (init initialState) "n" 440 DEFAULT_PATCH 0
    { gain := { value := 1/2, events := [] } } rfl rfl).1

/-- Claim C3: `triggerRelease(id, patch?)` on a live voice cancels the pending
ramps (keeping only events strictly before `t`), re-anchors the gain at its
current value, exponential-ramps it to 0.001 over `releaseTime`
(`patch.ampRelease` when a patch is supplied, 0.5 s otherwise), schedules the
oscillator and LFO stops at `releaseTime + 0.1`, defers node disconnection to
`releaseTime + 0.2`, and removes the voice from the registry synchronously. -/
theorem triggerRelease_schedule (s : AudioEngineState) (id : String) (t : ℚ)
    (po : Option SynthPatch) (v : Voice)
    (hc : s.context = true) (hv : mapGet s.activeNotes id = some v) :
    mapGet (triggerRelease s id t po).activeNotes id = none ∧
    (triggerRelease s id t po).releasedVoices
      = s.releasedVoices ++
        [{ voice := releaseVoice v t (releaseTimeOf po),
           cleanupTime := t + releaseTimeOf po + 1/5 }] ∧
    (releaseVoice v t (releaseTimeOf po)).amp.gain.events
      = v.amp.gain.events.filter (fun e => decide (e.time < t)) ++
        [AutomationEvent.setValueAtTime v.amp.gain.value t,
         AutomationEvent.exponentialRampToValueAtTime (1/1000) (t + releaseTimeOf po)] ∧
    (releaseVoice v t (releaseTimeOf po)).osc.stopTime
      = some (t + releaseTimeOf po + 1/10) ∧
    (releaseVoice v t (releaseTimeOf po)).lfo.stopTime
      = some (t + releaseTimeOf po + 1/10) ∧
    (∀ q : SynthPatch, releaseTimeOf (some q) = q.ampRelease) ∧
    releaseTimeOf none = (1/2 : ℚ) := by
  refine ⟨mapGet_triggerRelease_self s id t po hc, ?_, ?_, rfl, rfl, fun q => rfl, rfl⟩
  · rw [triggerRelease_eq_found s id t po v hc hv]
  · simp [releaseVoice, AudioParam.cancelScheduledValues, AudioParam.setValueAtTime,
      AudioParam.exponentialRampToValueAtTime, List.append_assoc]

theorem triggerRelease_schedule_check :
    mapGet (triggerRelease (triggerAttack (init initialState) "n" 440 DEFAULT_PATCH 0)
      "n" 3 (some DEFAULT_PATCH)).activeNotes "n" = none :=
  (triggerRelease_schedule (triggerAttack (init initialState) "n" 440 DEFAULT_PATCH 0)
    "n" 3 (some DEFAULT_PATCH) (mkVoice 440 DEFAULT_PATCH 0) rfl rfl).1

end AudioEngine


namespace AudioEngine

/-- Claim C4: the distortion curve is, at `amount = 0`, the identity on its
sample points (`curve i = 2i/N − 1`); at `amount ≠ 0` it follows
`(3+k)·x·(20π/180)/(π + k·|x|)` for `x = 2i/N − 1`, so for positive amounts
the center sample (`x = 0`) maps to 0 and the curve is odd-symmetric on every
pair of grid points `x` and `−x` (indices `i` and `N − i`). -/
theorem makeDistortionCurve_spec :
    (∀ i : ℕ, makeDistortionCurve 0 i = (i * 2 : ℚ) / 44100 - 1) ∧
    (∀ k : ℚ, k ≠ 0 → ∀ i : ℕ,
      makeDistortionCurve k i
        = (3 + k) * ((i * 2 : ℚ) / 44100 - 1) * 20 * (mathPi / 180)
            / (mathPi + k * |(i * 2 : ℚ) / 44100 - 1|)) ∧
    (∀ k : ℚ, 0 < k → makeDistortionCurve k 22050 = 0) ∧
    (∀ (k : ℚ) (i : ℕ), 0 < k → 1 ≤ i → i ≤ 44099 →
      makeDistortionCurve k (44100 - i) = - makeDistortionCurve k i) := by
  have hform : ∀ k : ℚ, k ≠ 0 → ∀ i : ℕ,
      makeDistortionCurve k i
        = (3 + k) * ((i * 2 : ℚ) / 44100 - 1) * 20 * (mathPi / 180)
            / (mathPi + k * |(i * 2 : ℚ) / 44100 - 1|) := by
    intro k hk i
    simp [makeDistortionCurve, n_samples, hk]
  refine ⟨?_, hform, ?_, ?_⟩
  · intro i
    simp [makeDistortionCurve, n_samples]
  · intro k hk
    rw [hform k hk.ne' 22050]
    norm_num
  · intro k i hk h1 h2
    rw [hform k hk.ne', hform k hk.ne']
    have hc : (((44100 - i : ℕ) : ℚ) * 2) / 44100 - 1
        = -(((i : ℕ) * 2 : ℚ) / 44100 - 1) := by
      have : ((44100 - i : ℕ) : ℚ) = 44100 - (i : ℚ) := by
        push_cast [Nat.cast_sub (by omega : i ≤ 44100)]
        ring
      rw [this]
      ring
    rw [hc, abs_neg]
    ring

/-- Claim C5: on an initialized engine, `updateActiveParams(patch)` drives the
reverb wet gain toward `reverbMix` and the reverb dry gain toward
`1 − 0.4·reverbMix`. -/
theorem updateActiveParams_reverbMix (s : AudioEngineState) (p : SynthPatch) (t : ℚ)
    (w d : GainNode) (hc : s.context = true)
    (hw : s.reverbWetNode = some w) (hd : s.reverbDryNode = some d) :
    (updateActiveParams s p t).reverbWetNode
      = some { gain := w.gain.setTargetAtTime p.reverbMix t (1/10) } ∧
    (updateActiveParams s p t).reverbDryNode
      = some { gain := d.gain.setTargetAtTime (1 - p.reverbMix * (2/5)) t (1/10) } ∧
    steadyValue (w.gain.setTargetAtTime p.reverbMix t (1/10)).events = some p.reverbMix ∧
    steadyValue (d.gain.setTargetAtTime (1 - p.reverbMix * (2/5)) t (1/10)).events
      = some (1 - p.reverbMix * (2/5)) := by
  have hbase := updateActiveParams_eq s p t hc
  have hw2 : (updateDelay p t (updateDistortion p
      { s with activeNotes := s.activeNotes.map (fun kv => (kv.1, updateVoice p t kv.2)) })).reverbWetNode
      = some w := by
    rw [updateDelay_reverbWetNode, updateDistortion_reverbWetNode]
    exact hw
  have hd2 : (updateDelay p t (updateDistortion p
      { s with activeNotes := s.activeNotes.map (fun kv => (kv.1, updateVoice p t kv.2)) })).reverbDryNode
      = some d := by
    rw [updateDelay_reverbDryNode, updateDistortion_reverbDryNode]
    exact hd
  have hnodes := updateReverb_nodes p t _ w d hw2 hd2
  refine ⟨?_, ?_, ?_, ?_⟩
  · rw [hbase]; exact hnodes.1
  · rw [hbase]; exact hnodes.2
  · simp [steadyValue, AudioParam.setTargetAtTime, List.getLast?_concat, AutomationEvent.target]
  · simp [steadyValue, AudioParam.setTargetAtTime, List.getLast?_concat, AutomationEvent.target]

theorem updateActiveParams_reverbMix_check :
    (updateActiveParams (init initialState) DEFAULT_PATCH 0).reverbWetNode
      = some { gain := createGain.gain.setTargetAtTime DEFAULT_PATCH.reverbMix 0 (1/10) } :=
  (updateActiveParams_reverbMix (init initialState) DEFAULT_PATCH 0
    createGain createGain rfl rfl rfl).1

/-- Claim C6: before `init()` has built the audio graph (no context, no
analysis node), `triggerAttack`, `triggerRelease`, `updateActiveParams` and
`setMasterVolume` all return the state unchanged, and `getAnalyser` returns
`none`. -/
theorem uninitialized_noop (s : AudioEngineState)
    (hc : s.context = false) (ha : s.analyser = none) :
    (∀ (id : String) (f : ℚ) (p : SynthPatch) (t : ℚ), triggerAttack s id f p t = s) ∧
    (∀ (id : String) (t : ℚ) (po : Option SynthPatch), triggerRelease s id t po = s) ∧
    (∀ (p : SynthPatch) (t : ℚ), updateActiveParams s p t = s) ∧
    (∀ (v t : ℚ), setMasterVolume s v t = s) ∧
    getAnalyser s = none := by
  refine ⟨?_, ?_, ?_, ?_, ha⟩
  · intro id f p t
    unfold triggerAttack
    rw [hc]
  · intro id t po
    unfold triggerRelease
    rw [hc]
    rfl
  · intro p t
    unfold updateActiveParams
    rw [hc]
    rfl
  · intro v t
    unfold setMasterVolume
    rw [hc]
    cases s.masterGain <;> rfl

theorem uninitialized_noop_check :
    (∀ (id : String) (f : ℚ) (p : SynthPatch) (t : ℚ),
      triggerAttack initialState id f p t = initialState) ∧
    (∀ (id : String) (t : ℚ) (po : Option SynthPatch),
      triggerRelease initialState id t po = initialState) ∧
    (∀ (p : SynthPatch) (t : ℚ), updateActiveParams initialState p t = initialState) ∧
    (∀ (v t : ℚ), setMasterVolume initialState v t = initialState) ∧
    getAnalyser initialState = none :=
  uninitialized_noop initialState rfl rfl

/-- Claim C7: `triggerRelease(id, patch?)` when no live voice is registered
under `id` returns the engine state unchanged. -/
theorem triggerRelease_missing_noop (s : AudioEngineState) (id : String) (t : ℚ)
    (po : Option SynthPatch) (h : mapGet s.activeNotes id = none) :
    triggerRelease s id t po = s := by
  unfold triggerRelease
  rw [h]
  simp

theorem triggerRelease_missing_noop_check :
    triggerRelease (init initialState) "n" 0 none = init initialState :=
  triggerRelease_missing_noop (init initialState) "n" 0 none rfl

end AudioEngine


namespace AudioEngine

/-- Claim C8: `updateActiveParams` never creates or destroys a voice: the
registry keeps exactly the same identities in the same order, every surviving
entry is the parameter-update of the old voice, and no identity appears or
disappears. -/
theorem updateActiveParams_preserves_voices (s : AudioEngineState) (p : SynthPatch) (t : ℚ) :
    ((updateActiveParams s p t).activeNotes.map Prod.fst = s.activeNotes.map Prod.fst) ∧
    (∀ id : String, mapGet (updateActiveParams s p t).activeNotes id
        = if s.context then (mapGet s.activeNotes id).map (updateVoice p t)
          else mapGet s.activeNotes id) ∧
    (∀ id : String, (mapGet (updateActiveParams s p t).activeNotes id).isSome
        = (mapGet s.activeNotes id).isSome) := by
  cases hc : s.context
  · have hnoop : updateActiveParams s p t = s := by
      unfold updateActiveParams
      rw [hc]
      rfl
    rw [hnoop]
    exact ⟨rfl, fun id => rfl, fun id => rfl⟩
  · have hnotes : (updateActiveParams s p t).activeNotes
        = s.activeNotes.map (fun kv => (kv.1, updateVoice p t kv.2)) := by
      rw [updateActiveParams_eq s p t hc, updateReverb_activeNotes,
        updateDelay_activeNotes, updateDistortion_activeNotes]
    refine ⟨?_, fun id => ?_, fun id => ?_⟩
    · rw [hnotes, keys_keymap]
    · rw [hnotes, mapGet_keymap]
      rfl
    · rw [hnotes, mapGet_keymap]
      cases mapGet s.activeNotes id <;> rfl

/-- Claim C9: immediately after `init()` (and before any `updateActiveParams`)
the delay feedback gain, delay wet gain, reverb wet gain and reverb dry gain
all hold the `createGain` construction default of 1 with nothing scheduled;
only the master gain is explicitly initialized, to 0.5.  In particular the
delay feedback loop starts at unity gain, which lies outside the documented
`delayFeedback` range `[0, 0.95)` because `0.95 < 1`. -/
theorem init_gain_defaults :
    (init initialState).delayFeedbackNode = some createGain ∧
    (init initialState).delayWetNode = some createGain ∧
    (init initialState).reverbWetNode = some createGain ∧
    (init initialState).reverbDryNode = some createGain ∧
    createGain.gain.value = 1 ∧
    createGain.gain.events = [] ∧
    (init initialState).masterGain = some { gain := { value := 1/2, events := [] } } ∧
    (19 : ℚ) / 20 < 1 :=
  ⟨rfl, rfl, rfl, rfl, rfl, rfl, rfl, by norm_num⟩

/-- Claim C10: with `lfoTarget = 'cutoff'` a fresh voice's LFO depth gain is
set to `lfoDepth × 2000` while `updateActiveParams` drives it toward
`lfoDepth × 1000` — exactly half the creation value — whereas for
`'pitch'` (×100) and `'amp'` (×0.5) creation and update use the same scale. -/
theorem lfo_depth_scale (p : SynthPatch) (f t : ℚ) (v : Voice) :
    (p.lfoTarget = LfoTarget.cutoff →
      (mkVoice f p t).lfoGain.gain.events
        = [AutomationEvent.setValueAtTime (p.lfoDepth * 2000) t] ∧
      (updateVoice p t v).lfoGain.gain.events
        = v.lfoGain.gain.events
          ++ [AutomationEvent.setTargetAtTime (p.lfoDepth * 1000) t (1/10)] ∧
      p.lfoDepth * 1000 = p.lfoDepth * 2000 / 2) ∧
    (p.lfoTarget = LfoTarget.pitch →
      (mkVoice f p t).lfoGain.gain.events
        = [AutomationEvent.setValueAtTime (p.lfoDepth * 100) t] ∧
      (updateVoice p t v).lfoGain.gain.events
        = v.lfoGain.gain.events
          ++ [AutomationEvent.setTargetAtTime (p.lfoDepth * 100) t (1/10)]) ∧
    (p.lfoTarget = LfoTarget.amp →
      (mkVoice f p t).lfoGain.gain.events
        = [AutomationEvent.setValueAtTime (p.lfoDepth * (1/2)) t] ∧
      (updateVoice p t v).lfoGain.gain.events
        = v.lfoGain.gain.events
          ++ [AutomationEvent.setTargetAtTime (p.lfoDepth * (1/2)) t (1/10)]) := by
  refine ⟨fun h => ⟨?_, ?_, by ring⟩, fun h => ⟨?_, ?_⟩, fun h => ⟨?_, ?_⟩⟩ <;>
    simp [mkVoice, updateVoice, lfoAmountAttack, lfoAmountUpdate, h, createGain,
      AudioParam.setValueAtTime, AudioParam.setTargetAtTime]

end AudioEngine

